import Mathlib

/-!
Verification of the MySQL dialect module of a pluggable SQL parser
(`src/dialect/mysql.rs`).  The module is a set of callback hooks over a
host-owned token cursor: identifier character classification, an infix
hook for the DIV operator, a statement hook for LOCK/UNLOCK TABLES, and a
table-option grammar engine (`parse_plain_option`).

The host parser primitives (token cursor, `parse_keyword`,
`parse_one_of_keywords`, `parse_identifier`, `expected`, numeric literal
parsing) live outside the translated file; they are modelled here from the
specification of the extension-point contract, with the cursor represented
as the list of remaining tokens.
-/

set_option maxHeartbeats 1000000

namespace MySqlSpec

/-- Keywords inspected by the MySQL dialect module.  The host crate has a
closed keyword enumeration; this enumeration lists every keyword the module
mentions, plus `SELECT` as a sample unrelated keyword and `NoKeyword` for
plain identifier words. -/
inductive Keyword where
  | DIV | LOCK | TABLES | UNLOCK | READ | WRITE | LOCAL | LOW_PRIORITY
  | USE | IGNORE | FORCE
  | INSERT_METHOD | KEY_BLOCK_SIZE | ROW_FORMAT | DATA | INDEX | PACK_KEYS
  | STATS_AUTO_RECALC | STATS_PERSISTENT | STATS_SAMPLE_PAGES
  | DELAY_KEY_WRITE | COMPRESSION | ENCRYPTION | MAX_ROWS | MIN_ROWS
  | AUTOEXTEND_SIZE | AVG_ROW_LENGTH | CHECKSUM | CONNECTION
  | ENGINE_ATTRIBUTE | PASSWORD | SECONDARY_ENGINE_ATTRIBUTE | START
  | TABLESPACE | UNION | DIRECTORY | TRANSACTION | STORAGE
  | SELECT | NoKeyword
  deriving DecidableEq, Repr

/-- Debug rendering of a keyword, as used by the Rust formatter in the
catch-all error message of `parse_plain_option`. -/
def Keyword.debugName : Keyword → String
  | .DIV => "DIV"
  | .LOCK => "LOCK"
  | .TABLES => "TABLES"
  | .UNLOCK => "UNLOCK"
  | .READ => "READ"
  | .WRITE => "WRITE"
  | .LOCAL => "LOCAL"
  | .LOW_PRIORITY => "LOW_PRIORITY"
  | .USE => "USE"
  | .IGNORE => "IGNORE"
  | .FORCE => "FORCE"
  | .INSERT_METHOD => "INSERT_METHOD"
  | .KEY_BLOCK_SIZE => "KEY_BLOCK_SIZE"
  | .ROW_FORMAT => "ROW_FORMAT"
  | .DATA => "DATA"
  | .INDEX => "INDEX"
  | .PACK_KEYS => "PACK_KEYS"
  | .STATS_AUTO_RECALC => "STATS_AUTO_RECALC"
  | .STATS_PERSISTENT => "STATS_PERSISTENT"
  | .STATS_SAMPLE_PAGES => "STATS_SAMPLE_PAGES"
  | .DELAY_KEY_WRITE => "DELAY_KEY_WRITE"
  | .COMPRESSION => "COMPRESSION"
  | .ENCRYPTION => "ENCRYPTION"
  | .MAX_ROWS => "MAX_ROWS"
  | .MIN_ROWS => "MIN_ROWS"
  | .AUTOEXTEND_SIZE => "AUTOEXTEND_SIZE"
  | .AVG_ROW_LENGTH => "AVG_ROW_LENGTH"
  | .CHECKSUM => "CHECKSUM"
  | .CONNECTION => "CONNECTION"
  | .ENGINE_ATTRIBUTE => "ENGINE_ATTRIBUTE"
  | .PASSWORD => "PASSWORD"
  | .SECONDARY_ENGINE_ATTRIBUTE => "SECONDARY_ENGINE_ATTRIBUTE"
  | .START => "START"
  | .TABLESPACE => "TABLESPACE"
  | .UNION => "UNION"
  | .DIRECTORY => "DIRECTORY"
  | .TRANSACTION => "TRANSACTION"
  | .STORAGE => "STORAGE"
  | .SELECT => "SELECT"
  | .NoKeyword => "NoKeyword"

/-- Tokens the module inspects.  A word token carries its raw text and the
keyword tag assigned by the tokenizer (`NoKeyword` for plain identifiers);
a number token carries its raw text and the long suffix flag. -/
inductive Token where
  | Word (value : String) (keyword : Keyword)
  | Number (n : String) (long : Bool)
  | SingleQuotedString (s : String)
  | Eq
  | Comma
  | LParen
  | RParen
  | Semi
  | EOF
  deriving DecidableEq, Repr

/-- Identifier AST node (quote style omitted: the module builds only
unquoted identifiers). -/
structure Ident where
  value : String
  deriving DecidableEq, Repr

/-- Literal values the module constructs. -/
inductive Value where
  | Number (n : String) (long : Bool)
  | SingleQuotedString (s : String)
  deriving DecidableEq, Repr

/-- Binary operators; the module only ever builds `MyIntegerDivide`. -/
inductive BinaryOperator where
  | MyIntegerDivide
  deriving DecidableEq, Repr

/-- Expression AST nodes the module constructs or receives. -/
inductive Expr where
  | Value (v : Value)
  | Identifier (i : Ident)
  | BinaryOp (left : Expr) (op : BinaryOperator) (right : Expr)
  deriving DecidableEq, Repr

/-- Storage kind of a TABLESPACE option. -/
inductive StorageType where
  | Disk | Memory
  deriving DecidableEq, Repr

/-- TABLESPACE option payload. -/
structure TablespaceOption where
  name : String
  storage : Option StorageType
  deriving DecidableEq, Repr

/-- Table/view option nodes produced by the option grammar engine. -/
inductive SqlOption where
  | KeyValue (key : Ident) (value : Expr)
  | Ident (name : MySqlSpec.Ident)
  | TableSpace (ts : TablespaceOption)
  | Union (tables : List MySqlSpec.Ident)
  deriving DecidableEq, Repr

/-- Lock type of one LOCK TABLES entry. -/
inductive LockTableType where
  | Read (isLocal : Bool)
  | Write (low_priority : Bool)
  deriving DecidableEq, Repr

/-- Parse errors.  The host carries a message string; the spec describes
structured expected/found errors, modelled here with the found token kept
intact. -/
inductive ParserError where
  | ParserError (msg : String)
  | Expected (what : String) (found : Token)
  deriving DecidableEq, Repr

/-- Modelled from the spec: the host token cursor, represented as the list
of tokens not yet consumed. -/
abbrev Tokens := List Token

/-- Modelled from the spec: host primitive returning the current token
without consuming it; end of stream reads as EOF. -/
def peek_token (ts : Tokens) : Token := ts.headD Token.EOF

/-- Modelled from the spec: host primitive returning the current token and
advancing the cursor. -/
def next_token (ts : Tokens) : Token × Tokens := (ts.headD Token.EOF, ts.tail)

/-- Modelled from the spec: host primitive consuming the given token when
it is the current one, reporting whether it did. -/
def consume_token (t : Token) (ts : Tokens) : Bool × Tokens :=
  if peek_token ts = t then (true, ts.tail) else (false, ts)

/-- Modelled from the spec: host primitive consuming a word token tagged
with the given keyword when it is the current token. -/
def parse_keyword (kw : Keyword) (ts : Tokens) : Bool × Tokens :=
  match ts with
  | Token.Word _ k :: rest => if k = kw then (true, rest) else (false, ts)
  | _ => (false, ts)

/-- Helper for `parse_keywords`: consume the keywords in order, or fail. -/
def parse_keywords_go : List Keyword → Tokens → Option Tokens
  | [], ts => some ts
  | k :: ks, ts =>
    match parse_keyword k ts with
    | (true, ts1) => parse_keywords_go ks ts1
    | (false, _) => none

/-- Modelled from the spec: host primitive consuming a keyword sequence
atomically, resetting the cursor when any element fails to match. -/
def parse_keywords (kws : List Keyword) (ts : Tokens) : Bool × Tokens :=
  match parse_keywords_go kws ts with
  | some ts1 => (true, ts1)
  | none => (false, ts)

/-- Modelled from the spec: host primitive that consumes the current word
token and returns its keyword tag when that tag is in the given list, and
otherwise consumes nothing. -/
def parse_one_of_keywords (kws : List Keyword) (ts : Tokens) :
    Option Keyword × Tokens :=
  match ts with
  | Token.Word _ k :: rest =>
    if kws.contains k then (some k, rest) else (none, ts)
  | _ => (none, ts)

/-- Modelled from the spec: host identifier parser, simplified to word and
single-quoted-string tokens; any other token is an expected-identifier
error. -/
def parse_identifier (ts : Tokens) : Except ParserError (Ident × Tokens) :=
  match next_token ts with
  | (Token.Word v _, rest) => .ok (⟨v⟩, rest)
  | (Token.SingleQuotedString s, rest) => .ok (⟨s⟩, rest)
  | (t, _) => .error (.Expected "identifier" t)

/-- Plain rendering of a token, used in expected-token error messages. -/
def tokenDesc : Token → String
  | .Word v _ => v
  | .Number n _ => n
  | .SingleQuotedString s => s
  | .Eq => "="
  | .Comma => ","
  | .LParen => "("
  | .RParen => ")"
  | .Semi => ";"
  | .EOF => "EOF"

/-- Modelled from the spec: host primitive requiring the given token,
failing with a structured expected/found error otherwise. -/
def expect_token (t : Token) (ts : Tokens) : Except ParserError Tokens :=
  match consume_token t ts with
  | (true, ts1) => .ok ts1
  | (false, _) => .error (.Expected (tokenDesc t) (peek_token ts))

/-- MySQL keywords reserved against use as an implicit table alias
(`RESERVED_FOR_TABLE_ALIAS_MYSQL` in the source). -/
def RESERVED_FOR_TABLE_ALIAS_MYSQL : List Keyword := [.USE, .IGNORE, .FORCE]

/-- Character classification for identifier start
(`MySqlDialect::is_identifier_start`).  The Rust standard alphabetic test
is external to the repository, so it is a parameter. -/
def is_identifier_start (isAlphabetic : Char → Bool) (ch : Char) : Bool :=
  isAlphabetic ch || ch == '_' || ch == '$' || ch == '@' ||
    (decide (Char.ofNat 0x80 ≤ ch) && decide (ch ≤ Char.ofNat 0xffff))

/-- Character classification for identifier continuation
(`MySqlDialect::is_identifier_part`). -/
def is_identifier_part (isAlphabetic : Char → Bool) (ch : Char) : Bool :=
  is_identifier_start isAlphabetic ch || ch.isDigit

/-- Table-alias admissibility test
(`MySqlDialect::is_table_factor_alias`).  The generic reserved set
`RESERVED_FOR_TABLE_ALIAS` lives in the host keyword table, outside the
translated file, so it is a parameter. -/
def is_table_factor_alias (reserved_for_table_alias : List Keyword)
    (explicit : Bool) (kw : Keyword) : Bool :=
  explicit || (!(reserved_for_table_alias.contains kw)
    && !(RESERVED_FOR_TABLE_ALIAS_MYSQL.contains kw))

/-- Decidable equality for parse results, used to evaluate hook outcomes on
concrete inputs. -/
instance {ε α : Type} [DecidableEq ε] [DecidableEq α] :
    DecidableEq (Except ε α) := fun a b =>
  match a, b with
  | .ok x, .ok y =>
    decidable_of_iff (x = y)
      ⟨fun h => by rw [h], fun h => by injection h⟩
  | .ok _, .error _ => .isFalse (fun h => Except.noConfusion h)
  | .error _, .ok _ => .isFalse (fun h => Except.noConfusion h)
  | .error e, .error f =>
    decidable_of_iff (e = f)
      ⟨fun h => by rw [h], fun h => by injection h⟩

/-- Outcome of one infix hook call.  The Rust hook returns an optional
parse result while mutating the host cursor; `panicked` models the process
abort caused by calling unwrap on a failed right-hand expression parse. -/
inductive InfixHookResult where
  | notHandled (ts : Tokens)
  | handled (r : Except ParserError Expr) (ts : Tokens)
  | panicked
  deriving DecidableEq, Repr

/-- Infix extension hook, the method parse_infix of MySqlDialect.  When the next
keyword is DIV it consumes it and parses the right operand with the host
expression parser, which lives outside the translated file and is therefore
a parameter; the source unwraps that parse result, so a failed right-hand
parse aborts instead of returning the error. -/
def parse_infix (parse_expr : Tokens → Except ParserError (Expr × Tokens))
    (ts : Tokens) (expr : Expr) (_precedence : Nat) : InfixHookResult :=
  match parse_keyword .DIV ts with
  | (true, ts1) =>
    match parse_expr ts1 with
    | .ok (right, ts2) =>
      .handled (.ok (.BinaryOp expr .MyIntegerDivide right)) ts2
    | .error _ => .panicked
  | (false, _) => .notHandled ts

/-- Lock-type sub-grammar of LOCK TABLES (`parse_lock_tables_type`):
READ with optional LOCAL, WRITE, or LOW_PRIORITY WRITE; anything else is
an expected-lock-type error at the unconsumed current token. -/
def parse_lock_tables_type (ts : Tokens) :
    Except ParserError (LockTableType × Tokens) :=
  match parse_keyword .READ ts with
  | (true, ts1) =>
    match parse_keyword .LOCAL ts1 with
    | (true, ts2) => .ok (.Read true, ts2)
    | (false, ts2) => .ok (.Read false, ts2)
  | (false, tsA) =>
    match parse_keyword .WRITE tsA with
    | (true, ts1) => .ok (.Write false, ts1)
    | (false, tsB) =>
      match parse_keywords [.LOW_PRIORITY, .WRITE] tsB with
      | (true, ts1) => .ok (.Write true, ts1)
      | (false, tsC) =>
        .error (.Expected "an lock type in LOCK TABLES" (peek_token tsC))

/-- Option keywords recognized by `parse_plain_option`, in source order. -/
def optionKeywords : List Keyword :=
  [.INSERT_METHOD, .KEY_BLOCK_SIZE, .ROW_FORMAT, .DATA, .INDEX, .PACK_KEYS,
   .STATS_AUTO_RECALC, .STATS_PERSISTENT, .STATS_SAMPLE_PAGES,
   .DELAY_KEY_WRITE, .COMPRESSION, .ENCRYPTION, .MAX_ROWS, .MIN_ROWS,
   .AUTOEXTEND_SIZE, .AVG_ROW_LENGTH, .CHECKSUM, .CONNECTION,
   .ENGINE_ATTRIBUTE, .PASSWORD, .SECONDARY_ENGINE_ATTRIBUTE, .START,
   .TABLESPACE, .UNION]

/-- Modelled from the Rust standard library: uppercase conversion of a
string, restricted to the ASCII conversion the option values exercise. -/
def to_uppercase (s : String) : String := ⟨s.data.map Char.toUpper⟩

/-- Accepted COMPRESSION values (`COMPRESSION_OPTS` in the source). -/
def COMPRESSION_OPTS : List String := ["ZLIB", "LZ4", "NONE"]

/-- Accepted INSERT_METHOD values (`INSERT_METHODS_OPTS` in the source). -/
def INSERT_METHODS_OPTS : List String := ["NO", "FIRST", "LAST"]

/-- Catch-all error of `parse_plain_option`, naming the recognized keyword
whose value token had no matching shape. -/
def catchAllErr (kw : Keyword) : ParserError :=
  .ParserError ("Table option " ++ kw.debugName
    ++ " does not have a matching value")

/-- Modelled from the spec: tail of the host comma-separated-list parser,
accumulating one element per comma; the fuel argument bounds the loop and
is chosen large enough at every call site. -/
def parse_comma_separated_ident_loop :
    Nat → Tokens → List Ident → Except ParserError (List Ident × Tokens)
  | 0, _, _ => .error (.ParserError "recursion limit reached")
  | fuel + 1, ts, acc =>
    match consume_token Token.Comma ts with
    | (false, ts1) => .ok (acc.reverse, ts1)
    | (true, ts1) =>
      match parse_identifier ts1 with
      | .error e => .error e
      | .ok (id, ts2) => parse_comma_separated_ident_loop fuel ts2 (id :: acc)

/-- Modelled from the spec: host one-or-more comma-separated identifier
list parser. -/
def parse_comma_separated_ident (fuel : Nat) (ts : Tokens) :
    Except ParserError (List Ident × Tokens) :=
  match parse_identifier ts with
  | .error e => .error e
  | .ok (id, ts1) => parse_comma_separated_ident_loop fuel ts1 [id]

/-- Modelled from the spec: host possibly-empty comma-separated identifier
list parser, returning the empty list without consuming anything when the
current token is the end token. -/
def parse_comma_separated0_ident (fuel : Nat) (endTok : Token)
    (ts : Tokens) : Except ParserError (List Ident × Tokens) :=
  if peek_token ts = endTok then .ok ([], ts)
  else parse_comma_separated_ident fuel ts

/-- Continuation of the TABLESPACE branch of `parse_plain_option` after the
tablespace name: optional STORAGE keyword, optional equals sign, then a
word that must case-insensitively be DISK or MEMORY. -/
def parse_tablespace_rest (name : String) (ts : Tokens) :
    Except ParserError (Option SqlOption × Tokens) :=
  match parse_keyword .STORAGE ts with
  | (true, ts1) =>
    let (_, ts2) := consume_token Token.Eq ts1
    let (storage_token, ts3) := next_token ts2
    match storage_token with
    | .Word w _ =>
      if (to_uppercase w) = "DISK" then
        .ok (some (.TableSpace ⟨name, some .Disk⟩), ts3)
      else if (to_uppercase w) = "MEMORY" then
        .ok (some (.TableSpace ⟨name, some .Memory⟩), ts3)
      else .error (.Expected "Storage type (DISK or MEMORY)" storage_token)
    | _ => .error (.Expected "Token::Word" storage_token)
  | (false, tsA) => .ok (some (.TableSpace ⟨name, none⟩), tsA)

/-- Value dispatch of the option grammar engine: the match expression of
`MySqlDialect::parse_plain_option` over the recognized keyword and the
value token, with `ts3` the cursor after the value token.  The host numeric
literal parser is outside the translated file and is the parameter `hp`. -/
def parse_option_value (hp : String → Except ParserError String)
    (keyword : Keyword) (value : Token) (ts3 : Tokens) :
    Except ParserError (Option SqlOption × Tokens) :=
  match keyword, value with
  | .KEY_BLOCK_SIZE, .Number n l =>
    match hp n with
    | .error e => .error e
    | .ok v =>
      .ok (some (.KeyValue ⟨"KEY_BLOCK_SIZE"⟩ (.Value (.Number v l))), ts3)
  | .ROW_FORMAT, .Word w _ =>
    .ok (some (.KeyValue ⟨"ROW_FORMAT"⟩ (.Identifier ⟨w⟩)), ts3)
  | .DATA, .Word _ k =>
    if k = .DIRECTORY then
      let (_, ts4) := consume_token Token.Eq ts3
      let (nt, ts5) := next_token ts4
      match nt with
      | .SingleQuotedString s =>
        .ok (some (.KeyValue ⟨"DATA DIRECTORY"⟩
          (.Value (.SingleQuotedString s))), ts5)
      | _ => .error (.Expected "Token::SingleQuotedString" nt)
    else .error (catchAllErr .DATA)
  | .INDEX, .Word _ k =>
    if k = .DIRECTORY then
      let (_, ts4) := consume_token Token.Eq ts3
      let (nt, ts5) := next_token ts4
      match nt with
      | .SingleQuotedString s =>
        .ok (some (.KeyValue ⟨"INDEX DIRECTORY"⟩
          (.Value (.SingleQuotedString s))), ts5)
      | _ => .error (.Expected "Token::SingleQuotedString" nt)
    else .error (catchAllErr .INDEX)
  | .PACK_KEYS, .Number n l =>
    match hp n with
    | .error e => .error e
    | .ok v =>
      .ok (some (.KeyValue ⟨"PACK_KEYS"⟩ (.Value (.Number v l))), ts3)
  | .PACK_KEYS, .Word w _ =>
    if (to_uppercase w) = "DEFAULT" then
      .ok (some (.KeyValue ⟨"PACK_KEYS"⟩
        (.Value (.SingleQuotedString w))), ts3)
    else .error (catchAllErr .PACK_KEYS)
  | .STATS_AUTO_RECALC, .Number n l =>
    match hp n with
    | .error e => .error e
    | .ok v =>
      .ok (some (.KeyValue ⟨"STATS_AUTO_RECALC"⟩ (.Value (.Number v l))),
        ts3)
  | .STATS_AUTO_RECALC, .Word w _ =>
    if (to_uppercase w) = "DEFAULT" then
      .ok (some (.KeyValue ⟨"STATS_AUTO_RECALC"⟩
        (.Value (.SingleQuotedString w))), ts3)
    else .error (catchAllErr .STATS_AUTO_RECALC)
  | .STATS_PERSISTENT, .Number n l =>
    match hp n with
    | .error e => .error e
    | .ok v =>
      .ok (some (.KeyValue ⟨"STATS_PERSISTENT"⟩ (.Value (.Number v l))),
        ts3)
  | .STATS_PERSISTENT, .Word w _ =>
    if (to_uppercase w) = "DEFAULT" then
      .ok (some (.KeyValue ⟨"STATS_PERSISTENT"⟩
        (.Value (.SingleQuotedString w))), ts3)
    else .error (catchAllErr .STATS_PERSISTENT)
  | .STATS_SAMPLE_PAGES, .Number n l =>
    match hp n with
    | .error e => .error e
    | .ok v =>
      .ok (some (.KeyValue ⟨"STATS_SAMPLE_PAGES"⟩ (.Value (.Number v l))),
        ts3)
  | .DELAY_KEY_WRITE, .Number n l =>
    match hp n with
    | .error e => .error e
    | .ok v =>
      .ok (some (.KeyValue ⟨"DELAY_KEY_WRITE"⟩ (.Value (.Number v l))),
        ts3)
  | .COMPRESSION, .SingleQuotedString s =>
    if COMPRESSION_OPTS.contains (to_uppercase s) then
      .ok (some (.KeyValue ⟨"COMPRESSION"⟩
        (.Value (.SingleQuotedString s))), ts3)
    else .error (catchAllErr .COMPRESSION)
  | .ENCRYPTION, .SingleQuotedString s =>
    .ok (some (.KeyValue ⟨"ENCRYPTION"⟩ (.Value (.SingleQuotedString s))),
      ts3)
  | .MAX_ROWS, .Number n l =>
    match hp n with
    | .error e => .error e
    | .ok v =>
      .ok (some (.KeyValue ⟨"MAX_ROWS"⟩ (.Value (.Number v l))), ts3)
  | .MIN_ROWS, .Number n l =>
    match hp n with
    | .error e => .error e
    | .ok v =>
      .ok (some (.KeyValue ⟨"MIN_ROWS"⟩ (.Value (.Number v l))), ts3)
  | .AUTOEXTEND_SIZE, .Number n l =>
    match hp n with
    | .error e => .error e
    | .ok v =>
      .ok (some (.KeyValue ⟨"AUTOEXTEND_SIZE"⟩ (.Value (.Number v l))),
        ts3)
  | .AVG_ROW_LENGTH, .Number n l =>
    match hp n with
    | .error e => .error e
    | .ok v =>
      .ok (some (.KeyValue ⟨"AVG_ROW_LENGTH"⟩ (.Value (.Number v l))),
        ts3)
  | .CHECKSUM, .Number n l =>
    match hp n with
    | .error e => .error e
    | .ok v =>
      .ok (some (.KeyValue ⟨"CHECKSUM"⟩ (.Value (.Number v l))), ts3)
  | .CONNECTION, .SingleQuotedString s =>
    .ok (some (.KeyValue ⟨"CONNECTION"⟩ (.Value (.SingleQuotedString s))),
      ts3)
  | .ENGINE_ATTRIBUTE, .SingleQuotedString s =>
    .ok (some (.KeyValue ⟨"ENGINE_ATTRIBUTE"⟩
      (.Value (.SingleQuotedString s))), ts3)
  | .PASSWORD, .SingleQuotedString s =>
    .ok (some (.KeyValue ⟨"PASSWORD"⟩ (.Value (.SingleQuotedString s))),
      ts3)
  | .SECONDARY_ENGINE_ATTRIBUTE, .SingleQuotedString s =>
    .ok (some (.KeyValue ⟨"SECONDARY_ENGINE_ATTRIBUTE"⟩
      (.Value (.SingleQuotedString s))), ts3)
  | .START, .Word _ k =>
    if k = .TRANSACTION then
      .ok (some (.Ident ⟨"START TRANSACTION"⟩), ts3)
    else .error (catchAllErr .START)
  | .INSERT_METHOD, .Word w _ =>
    if INSERT_METHODS_OPTS.contains (to_uppercase w) then
      .ok (some (.KeyValue ⟨"INSERT_METHOD"⟩ (.Identifier ⟨w⟩)), ts3)
    else .error (catchAllErr .INSERT_METHOD)
  | .TABLESPACE, .Word name _ => parse_tablespace_rest name ts3
  | .TABLESPACE, .SingleQuotedString name => parse_tablespace_rest name ts3
  | .UNION, .LParen =>
    match parse_comma_separated0_ident (ts3.length + 1) Token.RParen ts3 with
    | .error e => .error e
    | .ok (tables, ts4) =>
      match expect_token Token.RParen ts4 with
      | .error e => .error e
      | .ok ts5 => .ok (some (.Union tables), ts5)
  | kw, _ => .error (catchAllErr kw)

/-- Option grammar engine (`MySqlDialect::parse_plain_option`): recognize
one of the option keywords (consuming nothing on failure), consume an
optional equals sign, read the value token and dispatch on keyword and
value shape. -/
def parse_plain_option (hp : String → Except ParserError String)
    (ts : Tokens) : Except ParserError (Option SqlOption × Tokens) :=
  match parse_one_of_keywords optionKeywords ts with
  | (none, _) => .ok (none, ts)
  | (some keyword, ts1) =>
    let (_, ts2) := consume_token Token.Eq ts1
    let (value, ts3) := next_token ts2
    parse_option_value hp keyword value ts3

/-- Identity host numeric parser: accepts every raw number text unchanged,
the behavior of the host without the big-decimal feature. -/
def hp_id : String → Except ParserError String := fun s => .ok s

/-- Host expression parser that always fails, exercising the failure path
of the infix hook. -/
def failing_parse_expr : Tokens → Except ParserError (Expr × Tokens) :=
  fun _ => .error (.ParserError "right operand parse failed")

/-- Whether a token is a word tagged with the given keyword. -/
def tokenIsKeyword (t : Token) (kw : Keyword) : Bool :=
  match t with
  | Token.Word _ k => k == kw
  | _ => false

/-- Whether the current token is one of the option keywords that
`parse_plain_option` recognizes. -/
def startsRecognizedOption (ts : Tokens) : Bool :=
  match peek_token ts with
  | Token.Word _ k => optionKeywords.contains k
  | _ => false

/-- Optional equals-sign token list, for stating option token streams with
and without the sign. -/
def eqTokens (b : Bool) : Tokens := if b then [Token.Eq] else []

/-- C1 counterexample: with the DIV keyword at the cursor and a right-hand
expression parse that fails, the hook does not return the failure; the
source unwraps the failed result, which aborts (modelled as panicked). -/
theorem parse_infix_failure_not_propagated :
    parse_infix failing_parse_expr [Token.Word "DIV" .DIV]
      (.Identifier ⟨"a"⟩) 0 = .panicked
    ∧ parse_infix failing_parse_expr [Token.Word "DIV" .DIV]
        (.Identifier ⟨"a"⟩) 0 ≠
      .handled (.error (.ParserError "right operand parse failed")) [] := by
  constructor
  · decide
  · decide

/-- C1 amended: whenever the next keyword is DIV and the host parse of the
right-hand expression fails, the hook panics by unwrapping the failed
result instead of returning the error to the caller. -/
theorem parse_infix_div_rhs_failure_panics
    (parse_expr : Tokens → Except ParserError (Expr × Tokens))
    (ts ts1 : Tokens) (expr : Expr) (prec : Nat) (e : ParserError)
    (hdiv : parse_keyword .DIV ts = (true, ts1))
    (hfail : parse_expr ts1 = .error e) :
    parse_infix parse_expr ts expr prec = .panicked := by
  simp [ parse_infix, hdiv, hfail]

/-- Witness for the amended C1 theorem at a concrete token stream. -/
theorem parse_infix_div_rhs_failure_panics_witness :
    parse_infix failing_parse_expr [Token.Word "DIV" .DIV, Token.Semi]
      (.Identifier ⟨"a"⟩) 5 = .panicked :=
  parse_infix_div_rhs_failure_panics failing_parse_expr
    [Token.Word "DIV" .DIV, Token.Semi] [Token.Semi] (.Identifier ⟨"a"⟩) 5
    (.ParserError "right operand parse failed") (by decide) rfl

/-- C2: when the current token is not one of the recognized option
keywords, `parse_plain_option` returns ok-none and consumes nothing,
leaving the cursor exactly where it was. -/
theorem parse_plain_option_unrecognized_no_consumption
    (hp : String → Except ParserError String) (ts : Tokens)
    (h : startsRecognizedOption ts = false) :
    parse_plain_option hp ts = .ok (none, ts) := by
  cases ts with
  | nil => simp [parse_plain_option, parse_one_of_keywords]
  | cons t rest =>
    cases t <;>
      simp_all [parse_plain_option, parse_one_of_keywords,
        startsRecognizedOption, peek_token]

/-- Witness for C2 at a concrete token stream. -/
theorem parse_plain_option_unrecognized_witness :
    parse_plain_option hp_id [Token.Word "foo" .NoKeyword, Token.Eq]
      = .ok (none, [Token.Word "foo" .NoKeyword, Token.Eq]) :=
  parse_plain_option_unrecognized_no_consumption hp_id
    [Token.Word "foo" .NoKeyword, Token.Eq] (by decide)

/-- C8: an ASCII digit never starts an identifier but continues one;
identifier start holds exactly for alphabetic characters, underscore,
dollar, at-sign, or the extended range 0080 to FFFF; identifier part holds
exactly when start holds or the character is an ASCII digit.  The Rust
standard alphabetic test is a parameter, assumed false on ASCII digits as
in the Rust standard library. -/
theorem identifier_classification (isAlphabetic : Char → Bool)
    (hdigit : ∀ c : Char, c.isDigit = true → isAlphabetic c = false)
    (ch : Char) :
    (ch.isDigit = true →
      is_identifier_start isAlphabetic ch = false ∧
        is_identifier_part isAlphabetic ch = true)
    ∧ (is_identifier_start isAlphabetic ch = true ↔
        (isAlphabetic ch = true ∨ ch = '_' ∨ ch = '$' ∨ ch = '@' ∨
          (Char.ofNat 0x80 ≤ ch ∧ ch ≤ Char.ofNat 0xffff)))
    ∧ (is_identifier_part isAlphabetic ch = true ↔
        (is_identifier_start isAlphabetic ch = true ∨ ch.isDigit = true)) := by
  refine ⟨?_, ?_, ?_⟩
  · intro hd
    have hA := hdigit ch hd
    have hrange : ¬ (Char.ofNat 0x80 ≤ ch) := by
      simp only [Char.isDigit, Bool.and_eq_true, decide_eq_true_eq] at hd
      intro hle
      rw [Char.le_def] at hle
      have h1 : (Char.ofNat 0x80).val.toNat ≤ ch.val.toNat := hle
      have h2 : ch.val.toNat ≤ (57 : UInt32).toNat := hd.2
      have h3 : (Char.ofNat 0x80).val.toNat = 128 := by decide
      have h4 : (57 : UInt32).toNat = 57 := by decide
      omega
    have hu : (ch == '_') = false := by
      simp only [beq_eq_false_iff_ne, ne_eq]
      intro he
      subst he
      simp [Char.isDigit] at hd
    have hdol : (ch == '$') = false := by
      simp only [beq_eq_false_iff_ne, ne_eq]
      intro he
      subst he
      simp [Char.isDigit] at hd
    have hat : (ch == '@') = false := by
      simp only [beq_eq_false_iff_ne, ne_eq]
      intro he
      subst he
      simp [Char.isDigit] at hd
    constructor
    · simp [is_identifier_start, hA, hu, hdol, hat, hrange]
    · simp [is_identifier_part, hd]
  · simp only [is_identifier_start, Bool.or_eq_true, beq_iff_eq,
      decide_eq_true_eq, Bool.and_eq_true]
    tauto
  · simp [is_identifier_part]

/-- Witness for C8 at the concrete digit character 7, with the alphabetic
test that rejects every character. -/
theorem identifier_classification_witness :
    is_identifier_start (fun _ => false) '7' = false ∧
      is_identifier_part (fun _ => false) '7' = true :=
  (identifier_classification (fun _ => false) (fun _ _ => rfl) '7').1
    (by decide)

/-- C10: the table-alias test accepts every keyword when the alias is
explicit; when implicit it accepts exactly the keywords outside both the
generic reserved-for-table-alias set and the MySQL set USE, IGNORE,
FORCE. -/
theorem table_factor_alias_characterization
    (reserved_for_table_alias : List Keyword) (explicit : Bool)
    (kw : Keyword) :
    (explicit = true →
      is_table_factor_alias reserved_for_table_alias explicit kw = true)
    ∧ (explicit = false →
      (is_table_factor_alias reserved_for_table_alias explicit kw = true ↔
        (kw ∉ reserved_for_table_alias ∧
          kw ∉ ([.USE, .IGNORE, .FORCE] : List Keyword)))) := by
  constructor
  · intro h
    simp [is_table_factor_alias, h]
  · intro h
    subst h
    simp [is_table_factor_alias, RESERVED_FOR_TABLE_ALIAS_MYSQL,
      List.contains, List.elem_iff]

/-- Witness for C10: LOCAL is admissible as an implicit alias against a
sample generic reserved set that does not contain it. -/
theorem table_factor_alias_witness :
    is_table_factor_alias [Keyword.SELECT] false Keyword.LOCAL = true :=
  ((table_factor_alias_characterization [Keyword.SELECT] false
      Keyword.LOCAL).2 rfl).mpr (by constructor <;> decide)

/-- C3: the lock-type sub-grammar maps READ with optional LOCAL to the
read lock (local true exactly when LOCAL follows), WRITE to the write lock
without low priority, the sequence LOW_PRIORITY WRITE to the write lock
with low priority, and every other current token to the hard
expected-lock-type error, with the current token left unconsumed. -/
theorem lock_tables_type_characterization (t1 t2 : Token) (rest : Tokens) :
    (∀ v, t1 = Token.Word v .READ →
      ((∀ u, t2 = Token.Word u .LOCAL →
          parse_lock_tables_type (t1 :: t2 :: rest) = .ok (.Read true, rest))
        ∧ (tokenIsKeyword t2 .LOCAL = false →
            parse_lock_tables_type (t1 :: t2 :: rest) =
              .ok (.Read false, t2 :: rest))))
    ∧ (∀ v, t1 = Token.Word v .WRITE →
        parse_lock_tables_type (t1 :: t2 :: rest) =
          .ok (.Write false, t2 :: rest))
    ∧ (∀ v, t1 = Token.Word v .LOW_PRIORITY →
        ((∀ u, t2 = Token.Word u .WRITE →
            parse_lock_tables_type (t1 :: t2 :: rest) =
              .ok (.Write true, rest))
          ∧ (tokenIsKeyword t2 .WRITE = false →
              parse_lock_tables_type (t1 :: t2 :: rest) =
                .error (.Expected "an lock type in LOCK TABLES" t1))))
    ∧ (tokenIsKeyword t1 .READ = false → tokenIsKeyword t1 .WRITE = false →
        tokenIsKeyword t1 .LOW_PRIORITY = false →
        parse_lock_tables_type (t1 :: t2 :: rest) =
          .error (.Expected "an lock type in LOCK TABLES" t1)) := by
  refine ⟨?_, ?_, ?_, ?_⟩
  · intro v hv
    subst hv
    constructor
    · intro u hu
      subst hu
      simp [parse_lock_tables_type, parse_keyword]
    · intro hloc
      cases t2 <;>
        simp_all [parse_lock_tables_type, parse_keyword, tokenIsKeyword]
  · intro v hv
    subst hv
    simp [parse_lock_tables_type, parse_keyword]
  · intro v hv
    subst hv
    constructor
    · intro u hu
      subst hu
      simp [parse_lock_tables_type, parse_keyword, parse_keywords,
        parse_keywords_go]
    · intro hw
      cases t2 <;>
        simp_all [parse_lock_tables_type, parse_keyword, parse_keywords,
          parse_keywords_go, tokenIsKeyword, peek_token]
  · intro hr hw hlp
    cases t1 <;>
      simp_all [parse_lock_tables_type, parse_keyword, parse_keywords,
        parse_keywords_go, tokenIsKeyword, peek_token]

/-- Witness for C3: the two-keyword sequence LOW_PRIORITY WRITE yields the
low-priority write lock. -/
theorem lock_tables_type_witness :
    parse_lock_tables_type
      [Token.Word "LOW_PRIORITY" .LOW_PRIORITY, Token.Word "WRITE" .WRITE]
      = .ok (.Write true, []) :=
  ((lock_tables_type_characterization
      (Token.Word "LOW_PRIORITY" .LOW_PRIORITY) (Token.Word "WRITE" .WRITE)
      []).2.2.1 "LOW_PRIORITY" rfl).1 "WRITE" rfl

/-- Reduction of the option engine on a stream that starts with a word
tagged with a recognized option keyword, followed by an optional equals
sign and then the value token. -/
theorem parse_plain_option_recognized
    (hp : String → Except ParserError String) (w : String) (kw : Keyword)
    (hk : optionKeywords.contains kw = true) (e : Bool) (value : Token)
    (rest : Tokens) (hne : value ≠ Token.Eq) :
    parse_plain_option hp (Token.Word w kw :: eqTokens e ++ value :: rest)
      = parse_option_value hp kw value rest := by
  have hk2 : kw ∈ optionKeywords := List.elem_iff.mp hk
  cases e <;>
    simp [parse_plain_option, parse_one_of_keywords, hk2, eqTokens,
      consume_token, peek_token, next_token, hne]

/-- C4: after the COMPRESSION keyword and optional equals sign, a
single-quoted string is accepted exactly when its uppercased content is
ZLIB, LZ4 or NONE, yielding the COMPRESSION key-value node with the
original string; any other single-quoted string, and any non-string value
token, produces the catch-all error naming COMPRESSION. -/
theorem compression_option_characterization
    (hp : String → Except ParserError String) (w : String) (e : Bool)
    (value : Token) (rest : Tokens) (hne : value ≠ Token.Eq) :
    (∀ s, value = Token.SingleQuotedString s →
      (COMPRESSION_OPTS.contains (to_uppercase s) = true →
        parse_plain_option hp
          (Token.Word w .COMPRESSION :: eqTokens e ++ value :: rest)
          = .ok (some (.KeyValue ⟨"COMPRESSION"⟩
              (.Value (.SingleQuotedString s))), rest))
      ∧ (COMPRESSION_OPTS.contains (to_uppercase s) = false →
          parse_plain_option hp
            (Token.Word w .COMPRESSION :: eqTokens e ++ value :: rest)
            = .error (catchAllErr .COMPRESSION)))
    ∧ ((∀ s, value ≠ Token.SingleQuotedString s) →
        parse_plain_option hp
          (Token.Word w .COMPRESSION :: eqTokens e ++ value :: rest)
          = .error (catchAllErr .COMPRESSION)) := by
  have hck : optionKeywords.contains Keyword.COMPRESSION = true := by decide
  constructor
  · intro s hs
    subst hs
    rw [parse_plain_option_recognized hp w .COMPRESSION hck e _ rest hne]
    constructor
    · intro hc
      have hc2 : to_uppercase s ∈ COMPRESSION_OPTS := List.elem_iff.mp hc
      simp [parse_option_value, hc2]
    · intro hc
      have hc2 : to_uppercase s ∉ COMPRESSION_OPTS := by simpa using hc
      simp [parse_option_value, hc2]
  · intro hs
    rw [parse_plain_option_recognized hp w .COMPRESSION hck e value rest hne]
    cases value <;> simp_all [parse_option_value]

/-- Witness for C4: a lower-case compression value is accepted because its
uppercase form is in the accepted set. -/
theorem compression_option_witness :
    parse_plain_option hp_id
      [Token.Word "COMPRESSION" .COMPRESSION, Token.Eq,
       Token.SingleQuotedString "lz4"]
      = .ok (some (.KeyValue ⟨"COMPRESSION"⟩
          (.Value (.SingleQuotedString "lz4"))), []) :=
  ((compression_option_characterization hp_id "COMPRESSION" true
      (Token.SingleQuotedString "lz4") [] (by decide)).1 "lz4" rfl).1
    (by decide)

/-- C5: for PACK_KEYS, STATS_AUTO_RECALC and STATS_PERSISTENT, a number
value yields the key-value node with the host-parsed number, a word whose
uppercase form is DEFAULT yields the key-value node carrying the word as a
string value, and any other word is rejected with the catch-all error
naming the keyword. -/
theorem stats_option_characterization
    (hp : String → Except ParserError String) (kw : Keyword)
    (hkw : kw = .PACK_KEYS ∨ kw = .STATS_AUTO_RECALC ∨
      kw = .STATS_PERSISTENT)
    (w : String) (e : Bool) (value : Token) (rest : Tokens)
    (hne : value ≠ Token.Eq) :
    (∀ n l v, value = Token.Number n l → hp n = .ok v →
      parse_plain_option hp (Token.Word w kw :: eqTokens e ++ value :: rest)
        = .ok (some (.KeyValue ⟨kw.debugName⟩ (.Value (.Number v l))), rest))
    ∧ (∀ s k2, value = Token.Word s k2 →
        (to_uppercase s = "DEFAULT" →
          parse_plain_option hp
            (Token.Word w kw :: eqTokens e ++ value :: rest)
            = .ok (some (.KeyValue ⟨kw.debugName⟩
                (.Value (.SingleQuotedString s))), rest))
        ∧ (to_uppercase s ≠ "DEFAULT" →
            parse_plain_option hp
              (Token.Word w kw :: eqTokens e ++ value :: rest)
              = .error (catchAllErr kw))) := by
  have hk : optionKeywords.contains kw = true := by
    rcases hkw with h | h | h <;> subst h <;> decide
  constructor
  · intro n l v hv hn
    subst hv
    rw [parse_plain_option_recognized hp w kw hk e _ rest hne]
    rcases hkw with h | h | h <;> subst h <;>
      simp [parse_option_value, hn, Keyword.debugName]
  · intro s k2 hv
    subst hv
    rw [parse_plain_option_recognized hp w kw hk e _ rest hne]
    constructor
    · intro hdef
      rcases hkw with h | h | h <;> subst h <;>
        simp [parse_option_value, hdef, Keyword.debugName]
    · intro hdef
      rcases hkw with h | h | h <;> subst h <;>
        simp [parse_option_value, hdef, Keyword.debugName]

/-- Witness for C5: STATS_PERSISTENT with a mixed-case word Default is
accepted and stored as a string value. -/
theorem stats_option_witness :
    parse_plain_option hp_id
      [Token.Word "STATS_PERSISTENT" .STATS_PERSISTENT, Token.Eq,
       Token.Word "Default" .NoKeyword]
      = .ok (some (.KeyValue ⟨"STATS_PERSISTENT"⟩
          (.Value (.SingleQuotedString "Default"))), []) :=
  ((stats_option_characterization hp_id .STATS_PERSISTENT
      (.inr (.inr rfl)) "STATS_PERSISTENT" true
      (Token.Word "Default" .NoKeyword) [] (by decide)).2 "Default"
      .NoKeyword rfl).1 (by decide)

/-- C6: after the TABLESPACE keyword and optional equals sign, the
tablespace name is taken from a word or a single-quoted string; when the
STORAGE keyword follows (with optional equals sign) the storage word must
case-insensitively be DISK or MEMORY, any other word being the hard
expected-storage-type error and a non-word value the expected-word error;
without STORAGE the node carries no storage kind. -/
theorem tablespace_option_characterization
    (hp : String → Except ParserError String) (w name : String) (e : Bool)
    (nameTok : Token) (nk : Keyword)
    (hname : nameTok = Token.Word name nk ∨
      nameTok = Token.SingleQuotedString name) :
    (∀ after, tokenIsKeyword (peek_token after) .STORAGE = false →
      parse_plain_option hp
        (Token.Word w .TABLESPACE :: eqTokens e ++ nameTok :: after)
        = .ok (some (.TableSpace ⟨name, none⟩), after))
    ∧ (∀ sv e2 u uk rest,
        parse_plain_option hp
          (Token.Word w .TABLESPACE :: eqTokens e ++ nameTok ::
            (Token.Word sv .STORAGE :: eqTokens e2 ++ Token.Word u uk :: rest))
          = (if to_uppercase u = "DISK" then
              .ok (some (.TableSpace ⟨name, some .Disk⟩), rest)
            else if to_uppercase u = "MEMORY" then
              .ok (some (.TableSpace ⟨name, some .Memory⟩), rest)
            else .error (.Expected "Storage type (DISK or MEMORY)"
              (Token.Word u uk))))
    ∧ (∀ sv e2 vt rest, (∀ a b, vt ≠ Token.Word a b) → vt ≠ Token.Eq →
        parse_plain_option hp
          (Token.Word w .TABLESPACE :: eqTokens e ++ nameTok ::
            (Token.Word sv .STORAGE :: eqTokens e2 ++ vt :: rest))
          = .error (.Expected "Token::Word" vt)) := by
  have hk : optionKeywords.contains Keyword.TABLESPACE = true := by decide
  have hnne : nameTok ≠ Token.Eq := by
    rcases hname with h | h <;> subst h <;> simp
  refine ⟨?_, ?_, ?_⟩
  · intro after hafter
    rw [parse_plain_option_recognized hp w .TABLESPACE hk e nameTok after
      hnne]
    rcases hname with h | h <;> subst h <;>
      (simp only [parse_option_value]
       cases after with
       | nil => simp [parse_tablespace_rest, parse_keyword]
       | cons t rest2 =>
         cases t <;>
           simp_all [parse_tablespace_rest, parse_keyword, tokenIsKeyword,
             peek_token])
  · intro sv e2 u uk rest
    rw [parse_plain_option_recognized hp w .TABLESPACE hk e nameTok
      (Token.Word sv .STORAGE :: eqTokens e2 ++ Token.Word u uk :: rest)
      hnne]
    rcases hname with h | h <;> subst h <;> cases e2 <;>
      simp [parse_option_value, parse_tablespace_rest, parse_keyword,
        consume_token, peek_token, next_token, eqTokens]
  · intro sv e2 vt rest hvt hvte
    rw [parse_plain_option_recognized hp w .TABLESPACE hk e nameTok
      (Token.Word sv .STORAGE :: eqTokens e2 ++ vt :: rest) hnne]
    rcases hname with h | h <;> subst h <;> cases e2 <;>
      (simp only [parse_option_value]
       cases vt <;>
         simp_all [parse_tablespace_rest, parse_keyword, consume_token,
           peek_token, next_token, eqTokens])

/-- Witness for C6: TABLESPACE with a word name and STORAGE set to a
lower-case memory word yields the memory storage kind. -/
theorem tablespace_option_witness :
    parse_plain_option hp_id
      [Token.Word "TABLESPACE" .TABLESPACE, Token.Word "ts1" .NoKeyword,
       Token.Word "STORAGE" .STORAGE, Token.Eq,
       Token.Word "memory" .NoKeyword]
      = .ok (some (.TableSpace ⟨"ts1", some .Memory⟩), []) := by
  have h := (tablespace_option_characterization hp_id "TABLESPACE" "ts1"
    false (Token.Word "ts1" .NoKeyword) .NoKeyword (.inl rfl)).2.1
    "STORAGE" true "memory" .NoKeyword []
  simpa using h

/-- Comma-prefixed word tokens for the given names: the token shape the
identifier-list loop consumes after the first identifier. -/
def commaTail : List String → Tokens
  | [] => []
  | n :: ns => Token.Comma :: Token.Word n .NoKeyword :: commaTail ns

/-- Word tokens for the given names separated by commas. -/
def commaJoinedWords : List String → Tokens
  | [] => []
  | n :: ns => Token.Word n .NoKeyword :: commaTail ns

/-- Length of the comma-prefixed tail: two tokens per name. -/
theorem commaTail_length (ns : List String) :
    (commaTail ns).length = 2 * ns.length := by
  induction ns with
  | nil => rfl
  | cons n ns ih =>
    simp [commaTail, ih]
    omega

/-- The identifier-list loop consumes exactly the comma-prefixed words and
stops at the first non-comma token, returning the names in source order
after the accumulator. -/
theorem parse_comma_separated_ident_loop_spec (names : List String)
    (suffix : Tokens) (hsuffix : peek_token suffix ≠ Token.Comma) :
    ∀ fuel acc, names.length < fuel →
      parse_comma_separated_ident_loop fuel (commaTail names ++ suffix) acc
        = .ok (acc.reverse ++ names.map Ident.mk, suffix) := by
  induction names with
  | nil =>
    intro fuel acc hf
    cases fuel with
    | zero => omega
    | succ f =>
      simp [commaTail, parse_comma_separated_ident_loop, consume_token,
        hsuffix]
  | cons n ns ih =>
    intro fuel acc hf
    cases fuel with
    | zero => omega
    | succ f =>
      have hf2 : ns.length < f := by
        simp only [List.length_cons] at hf
        omega
      simp only [commaTail, List.cons_append,
        parse_comma_separated_ident_loop, consume_token, peek_token,
        List.headD_cons, if_pos, List.tail_cons, parse_identifier,
        next_token]
      rw [ih f (⟨n⟩ :: acc) hf2]
      simp

/-- The possibly-empty identifier-list parser on a comma-joined word list
closed by a right parenthesis returns the names in source order and leaves
the parenthesis unconsumed. -/
theorem parse_comma_separated0_ident_words (names : List String)
    (rest : Tokens) (fuel : Nat) (hf : names.length < fuel) :
    parse_comma_separated0_ident fuel Token.RParen
      (commaJoinedWords names ++ Token.RParen :: rest)
      = .ok (names.map Ident.mk, Token.RParen :: rest) := by
  cases names with
  | nil =>
    simp [commaJoinedWords, parse_comma_separated0_ident, peek_token]
  | cons n ns =>
    have h2 : ns.length < fuel := by
      simp only [List.length_cons] at hf
      omega
    simp only [commaJoinedWords, List.cons_append]
    rw [parse_comma_separated0_ident]
    simp only [peek_token, List.headD_cons, parse_comma_separated_ident,
      parse_identifier, next_token, List.tail_cons, reduceCtorEq,
      if_false]
    rw [parse_comma_separated_ident_loop_spec ns (Token.RParen :: rest)
      (by simp [peek_token]) fuel [⟨n⟩] h2]
    simp

/-- The possibly-empty identifier-list parser on a comma-joined word list
with no closing token: an empty list fails on a missing identifier and a
nonempty list succeeds with the cursor at end of stream. -/
theorem parse_comma_separated0_ident_words_eof (names : List String)
    (fuel : Nat) (hf : names.length < fuel) :
    parse_comma_separated0_ident fuel Token.RParen (commaJoinedWords names)
      = (match names with
         | [] => .error (.Expected "identifier" Token.EOF)
         | _ => .ok (names.map Ident.mk, [])) := by
  cases names with
  | nil =>
    simp [commaJoinedWords, parse_comma_separated0_ident, peek_token,
      parse_comma_separated_ident, parse_identifier, next_token]
  | cons n ns =>
    have h2 : ns.length < fuel := by
      simp only [List.length_cons] at hf
      omega
    simp only [commaJoinedWords]
    rw [parse_comma_separated0_ident]
    simp only [peek_token, List.headD_cons, parse_comma_separated_ident,
      parse_identifier, next_token, List.tail_cons, reduceCtorEq,
      if_false]
    have hloop := parse_comma_separated_ident_loop_spec ns []
      (by simp [peek_token]) fuel [⟨n⟩] h2
    rw [List.append_nil] at hloop
    rw [hloop]
    simp

/-- C7: after the UNION keyword, optional equals sign and a left
parenthesis, a possibly empty comma-separated identifier list closed by a
right parenthesis yields the union node with the identifiers in source
order; without the closing parenthesis the parse fails with an
expected-token error instead of returning a node. -/
theorem union_option_characterization
    (hp : String → Except ParserError String) (w : String) (e : Bool)
    (names : List String) (rest : Tokens) :
    (parse_plain_option hp
        (Token.Word w .UNION :: eqTokens e ++ Token.LParen ::
          (commaJoinedWords names ++ Token.RParen :: rest))
      = .ok (some (.Union (names.map Ident.mk)), rest))
    ∧ (parse_plain_option hp
        (Token.Word w .UNION :: eqTokens e ++ Token.LParen ::
          commaJoinedWords names)
      = .error (if names.isEmpty then .Expected "identifier" Token.EOF
          else .Expected ")" Token.EOF)) := by
  have hk : optionKeywords.contains Keyword.UNION = true := by decide
  have hlen : ∀ ns : List String,
      ns.length ≤ (commaJoinedWords ns).length := by
    intro ns
    cases ns with
    | nil => simp [commaJoinedWords]
    | cons a l =>
      simp [commaJoinedWords, commaTail_length]
      omega
  constructor
  · rw [parse_plain_option_recognized hp w .UNION hk e Token.LParen
      (commaJoinedWords names ++ Token.RParen :: rest) (by decide)]
    simp only [parse_option_value]
    rw [parse_comma_separated0_ident_words names rest _
      (by
        have := hlen names
        simp only [List.length_append, List.length_cons]
        omega)]
    simp [expect_token, consume_token, peek_token]
  · rw [parse_plain_option_recognized hp w .UNION hk e Token.LParen
      (commaJoinedWords names) (by decide)]
    simp only [parse_option_value]
    rw [parse_comma_separated0_ident_words_eof names _
      (by
        have := hlen names
        omega)]
    cases names with
    | nil => simp
    | cons n ns =>
      simp [expect_token, consume_token, peek_token, tokenDesc]

/-- Canonical KeyValue keys the option grammar engine can produce: the
twenty keys of the claimed invariant extended with INSERT_METHOD, which
the engine also emits. -/
def canonicalOptionKeys : List String :=
  ["KEY_BLOCK_SIZE", "ROW_FORMAT", "DATA DIRECTORY", "INDEX DIRECTORY",
   "PACK_KEYS", "STATS_AUTO_RECALC", "STATS_PERSISTENT",
   "STATS_SAMPLE_PAGES", "DELAY_KEY_WRITE", "COMPRESSION", "ENCRYPTION",
   "MAX_ROWS", "MIN_ROWS", "AUTOEXTEND_SIZE", "AVG_ROW_LENGTH", "CHECKSUM",
   "CONNECTION", "ENGINE_ATTRIBUTE", "PASSWORD",
   "SECONDARY_ENGINE_ATTRIBUTE", "INSERT_METHOD"]

/-- The twenty canonical keys of the key-value invariant as originally
enumerated, without INSERT_METHOD. -/
def listedOptionKeys : List String :=
  ["KEY_BLOCK_SIZE", "ROW_FORMAT", "DATA DIRECTORY", "INDEX DIRECTORY",
   "PACK_KEYS", "STATS_AUTO_RECALC", "STATS_PERSISTENT",
   "STATS_SAMPLE_PAGES", "DELAY_KEY_WRITE", "COMPRESSION", "ENCRYPTION",
   "MAX_ROWS", "MIN_ROWS", "AUTOEXTEND_SIZE", "AVG_ROW_LENGTH", "CHECKSUM",
   "CONNECTION", "ENGINE_ATTRIBUTE", "PASSWORD",
   "SECONDARY_ENGINE_ATTRIBUTE"]

/-- The TABLESPACE continuation never returns a key-value node: it yields
tablespace nodes or errors only. -/
theorem parse_tablespace_rest_not_keyvalue (name : String) (ts : Tokens)
    (k : Ident) (v : Expr) (res : Tokens) :
    parse_tablespace_rest name ts ≠ .ok (some (.KeyValue k v), res) := by
  intro h
  unfold parse_tablespace_rest at h
  repeat' split at h
  all_goals simp at h

/-- Every key-value node the value dispatch returns carries one of the
canonical keys. -/
theorem parse_option_value_keyvalue_key
    (hp : String → Except ParserError String) (kw : Keyword)
    (value : Token) (ts3 res : Tokens) (k : Ident) (v : Expr)
    (h : parse_option_value hp kw value ts3
      = .ok (some (.KeyValue k v), res)) :
    k.value ∈ canonicalOptionKeys := by
  unfold parse_option_value at h
  repeat' split at h
  all_goals
    first
      | exact absurd h (parse_tablespace_rest_not_keyvalue _ _ _ _ _)
      | (simp only [Except.ok.injEq, Option.some.injEq,
           SqlOption.KeyValue.injEq, Prod.mk.injEq] at h
         obtain ⟨⟨h1, h2⟩, h3⟩ := h
         subst h1
         decide)
      | simp at h

/-- C9 counterexample: the engine returns a key-value node whose key is
INSERT_METHOD, which is outside the twenty keys enumerated by the
invariant as stated. -/
theorem key_value_key_outside_listed_set :
    parse_plain_option hp_id
      [Token.Word "insert_method" .INSERT_METHOD, Token.Eq,
       Token.Word "NO" .NoKeyword]
      = .ok (some (.KeyValue ⟨"INSERT_METHOD"⟩ (.Identifier ⟨"NO"⟩)), [])
    ∧ "INSERT_METHOD" ∉ listedOptionKeys := by
  constructor
  · decide
  · decide

/-- C9 amended: every key-value node `parse_plain_option` returns carries
one of the twenty-one canonical upper-case keys (the enumerated twenty
plus INSERT_METHOD), whatever the letter case of the option keyword in
the input. -/
theorem key_value_keys_canonical
    (hp : String → Except ParserError String) (ts res : Tokens)
    (k : Ident) (v : Expr)
    (h : parse_plain_option hp ts = .ok (some (.KeyValue k v), res)) :
    k.value ∈ canonicalOptionKeys := by
  unfold parse_plain_option at h
  split at h
  · simp at h
  · exact parse_option_value_keyvalue_key _ _ _ _ _ _ _ h

/-- Witness for the amended C9 theorem at a concrete stream. -/
theorem key_value_keys_canonical_witness :
    (⟨"KEY_BLOCK_SIZE"⟩ : Ident).value ∈ canonicalOptionKeys :=
  key_value_keys_canonical hp_id
    [Token.Word "KEY_BLOCK_SIZE" .KEY_BLOCK_SIZE, Token.Eq,
     Token.Number "8" false]
    [] ⟨"KEY_BLOCK_SIZE"⟩ (.Value (.Number "8" false)) (by decide)

end MySqlSpec
